import Mathlib

/-!
Verification development for the ChainViz backend.

This file gives a shallow embedding, in Lean 4, of the parts of the
ChainViz Python backend that the specification's testable claims are
about, and proves (or refutes) each claim against that embedding.

Conventions used throughout:
* Python floats (latencies, timestamps) are modelled as rationals `ℚ`;
  wall-clock time is passed explicitly as a `now : ℚ` argument to the
  operations that call `datetime.utcnow()`.
* Python `None` becomes `Option.none`; fallible operations return
  `Option` or `Except`.
* Mutable state (endpoint health records, trace graphs) becomes explicit
  state passing: each method of the Python class is a function from the
  state (plus arguments) to the new state.
* Upstream HTTP I/O is modelled by oracle functions supplied as
  arguments (for example `fetch : String → Option Transaction`), so the
  embedded code is pure and executable.
-/

namespace ChainViz

/-! ## Blockchain data model (`app/models/blockchain.py`) -/

/-- Embedding of `TransactionInput` from `app/models/blockchain.py`.
Fields not consulted by any claim (script_sig, sequence, witness) are
omitted; `script_type` is kept as an optional plain string tag. -/
structure TransactionInput where
  txid : String
  vout : Nat
  address : Option String := none
  value : Option Nat := none
  script_type : Option String := none
deriving Repr, DecidableEq

/-- Embedding of `TransactionOutput` from `app/models/blockchain.py`. -/
structure TransactionOutput where
  n : Nat
  value : Nat
  script_pubkey : String := ""
  address : Option String := none
  script_type : Option String := none
deriving Repr, DecidableEq

/-- Embedding of `Transaction` from `app/models/blockchain.py` (the
fields used by the traced claims). `block_height = none` means the
transaction is unconfirmed. -/
structure Transaction where
  txid : String
  locktime : Nat := 0
  inputs : List TransactionInput
  outputs : List TransactionOutput
  block_height : Option Nat := none
  timestamp : Option Nat := none
deriving Repr, DecidableEq

/-! ## Endpoint registry
(`app/services/datasource/mempool/endpoint_registry.py`)

The registry settings referenced through `settings.mempool_*` are fields
of a `RegistrySettings` record here; the Python code reads them from the
process-wide configuration object. -/

/-- The `settings.mempool_*` knobs consulted by
`MempoolEndpointState` (`endpoint_registry.py`). -/
structure RegistrySettings where
  adjust_window : Nat
  success_target : ℚ
  latency_target : ℚ
  failure_threshold : Nat
  failure_cooldown_seconds : ℚ
deriving Repr, DecidableEq

/-- Runtime state of one endpoint: the mutable fields of the Python
dataclass `MempoolEndpointState` (`endpoint_registry.py`, lines 18-67).
`min_concurrency`, `max_concurrency` and `priority` are fixed at
construction; the deques `_recent_outcomes` / `_recent_latencies`
(newest element last) and the timestamps are as in the source. -/
structure MempoolEndpointState where
  enabled : Bool := true
  priority : Nat := 0
  healthy : Bool := true
  success_count : Nat := 0
  failure_count : Nat := 0
  consecutive_failures : Nat := 0
  consecutive_successes : Nat := 0
  active_slots : Nat := 0
  concurrency_limit : Nat := 0
  min_concurrency : Nat := 1
  max_concurrency : Nat := 1
  total_latency : ℚ := 0
  total_requests : Nat := 0
  total_successes : Nat := 0
  total_failures : Nat := 0
  cooldown_until : Option ℚ := none
  recent_outcomes : List Bool := []
  recent_latencies : List ℚ := []
  last_adjustment : Option ℚ := none
deriving Repr, DecidableEq

/-- Appending to a `collections.deque` with `maxlen = m`: the new
element goes to the back and the oldest elements are evicted so that at
most `m` remain. -/
def dequeAppend {α : Type} (m : Nat) (xs : List α) (x : α) : List α :=
  let ys := xs ++ [x]
  ys.drop (ys.length - m)

/-- `MempoolEndpointState._cooldown_remaining` (lines 77-81). -/
def cooldownRemaining (s : MempoolEndpointState) (now : ℚ) : ℚ :=
  match s.cooldown_until with
  | none => 0
  | some t => max 0 (t - now)

/-- `MempoolEndpointState.is_available` (lines 83-88). -/
def isAvailable (s : MempoolEndpointState) (now : ℚ) : Bool :=
  if ¬ s.enabled then false
  else if s.concurrency_limit ≤ 0 then false
  else decide (cooldownRemaining s now = 0)

/-- Success rate over the rolling window, as computed at
`endpoint_registry.py` line 192:
`sum(1 for outcome in self._recent_outcomes if outcome) / window`. -/
def windowSuccessRate (s : MempoolEndpointState) : ℚ :=
  ((s.recent_outcomes.filter id).length : ℚ) / (s.recent_outcomes.length : ℚ)

/-- Mean latency over the rolling window (lines 193-197); `none` when
the latency window is empty. -/
def windowAvgLatency (s : MempoolEndpointState) : Option ℚ :=
  if s.recent_latencies.isEmpty then none
  else some (s.recent_latencies.sum / (s.recent_latencies.length : ℚ))

/-- The `adjust_down` condition of `_maybe_adjust_locked`
(lines 203-207). -/
def adjustDownCond (cfg : RegistrySettings) (s : MempoolEndpointState) : Prop :=
  windowSuccessRate s < cfg.success_target ∨
    (∃ a, windowAvgLatency s = some a ∧ cfg.latency_target < a) ∨
    cfg.failure_threshold ≤ s.consecutive_failures

instance (cfg : RegistrySettings) (s : MempoolEndpointState) :
    Decidable (adjustDownCond cfg s) := by
  unfold adjustDownCond windowAvgLatency
  exact inferInstance

/-- The condition of the increase branch of `_maybe_adjust_locked`
(line 213), without the `not decrease_only` conjunct. -/
def adjustUpCond (cfg : RegistrySettings) (s : MempoolEndpointState) : Prop :=
  cfg.success_target ≤ windowSuccessRate s ∧
    (∃ a, windowAvgLatency s = some a ∧ a ≤ cfg.latency_target) ∧
    s.concurrency_limit < s.max_concurrency

instance (cfg : RegistrySettings) (s : MempoolEndpointState) :
    Decidable (adjustUpCond cfg s) := by
  unfold adjustUpCond windowAvgLatency
  exact inferInstance

/-- The rate-limit guard of `_maybe_adjust_locked` (lines 188-190): a
previous adjustment happened less than one second ago. -/
def adjustedRecently (s : MempoolEndpointState) (now : ℚ) : Prop :=
  ∃ t, s.last_adjustment = some t ∧ now - t < 1

instance (s : MempoolEndpointState) (now : ℚ) :
    Decidable (adjustedRecently s now) := by
  unfold adjustedRecently
  cases s.last_adjustment with
  | none => exact .isFalse (by simp)
  | some t => exact decidable_of_iff (now - t < 1) (by simp)

/-- `MempoolEndpointState._maybe_adjust_locked` (lines 181-220). -/
def maybeAdjustLocked (cfg : RegistrySettings) (decrease_only : Bool)
    (now : ℚ) (s : MempoolEndpointState) : MempoolEndpointState :=
  if s.concurrency_limit ≤ 0 then s
  else if s.recent_outcomes.length < cfg.adjust_window then s
  else if adjustedRecently s now then s
  else if adjustDownCond cfg s ∧ s.min_concurrency < s.concurrency_limit then
    { s with concurrency_limit := s.concurrency_limit - 1,
             last_adjustment := some now,
             recent_outcomes := [], recent_latencies := [] }
  else if ¬ decrease_only ∧ adjustUpCond cfg s then
    { s with concurrency_limit := s.concurrency_limit + 1,
             last_adjustment := some now,
             recent_outcomes := [], recent_latencies := [] }
  else s

/-- `MempoolEndpointState.record_success` (lines 114-136); the final
`logger.debug` call has no state effect and is dropped. -/
def recordSuccess (cfg : RegistrySettings) (latency now : ℚ)
    (s : MempoolEndpointState) : MempoolEndpointState :=
  maybeAdjustLocked cfg false now
    { s with
      success_count := s.success_count + 1,
      total_requests := s.total_requests + 1,
      total_successes := s.total_successes + 1,
      total_latency := s.total_latency + latency,
      healthy := true,
      consecutive_failures := 0,
      consecutive_successes := s.consecutive_successes + 1,
      cooldown_until := none,
      recent_outcomes := dequeAppend cfg.adjust_window s.recent_outcomes true,
      recent_latencies := dequeAppend cfg.adjust_window s.recent_latencies latency }

/-- `MempoolEndpointState.record_failure` (lines 138-179).  Counters and
the short cooldown are updated first; if `consecutive_failures` reaches
`failure_threshold` the endpoint is hard-disabled (`concurrency_limit`
set to 0, day-long cooldown); `_maybe_adjust_locked(decrease_only=True)`
runs after the disable check; and at the very end, when the disable
fired and `priority == 0`, only `cooldown_until` is reset to `None`
(lines 167-175) - the zeroed `concurrency_limit` is left in place. -/
def recordFailure (cfg : RegistrySettings) (latency now : ℚ)
    (s : MempoolEndpointState) : MempoolEndpointState :=
  let s1 : MempoolEndpointState :=
    { s with
      failure_count := s.failure_count + 1,
      total_requests := s.total_requests + 1,
      total_failures := s.total_failures + 1,
      total_latency := s.total_latency + latency,
      healthy := false,
      consecutive_failures := s.consecutive_failures + 1,
      consecutive_successes := 0,
      cooldown_until := some (now + cfg.failure_cooldown_seconds),
      recent_outcomes := dequeAppend cfg.adjust_window s.recent_outcomes false,
      recent_latencies := dequeAppend cfg.adjust_window s.recent_latencies latency }
  let disable : Bool := decide (cfg.failure_threshold ≤ s1.consecutive_failures)
  let s2 : MempoolEndpointState :=
    if disable then
      { s1 with concurrency_limit := 0, cooldown_until := some (now + 86400) }
    else s1
  let s3 := maybeAdjustLocked cfg true now s2
  if disable ∧ s3.priority = 0 then { s3 with cooldown_until := none } else s3

/-- One resolution of the waiting loop in
`MempoolEndpointState.acquire_slot` (lines 90-108), evaluated at a fixed
instant: `some (true, s')` means a slot was granted, `some (false, s)`
means the `RuntimeError` branches fired (endpoint disabled), `none`
means the caller would keep waiting at this instant. -/
def tryAcquireSlot (s : MempoolEndpointState) (now : ℚ) :
    Option (Bool × MempoolEndpointState) :=
  if ¬ s.enabled then some (false, s)
  else if 0 < cooldownRemaining s now then none
  else if s.concurrency_limit ≤ 0 then some (false, s)
  else if s.active_slots < s.concurrency_limit then
    some (true, { s with active_slots := s.active_slots + 1 })
  else none

/-- `MempoolEndpointState.release_slot` (lines 110-112):
`active_slots = max(0, active_slots - 1)`, which is truncated
subtraction on `Nat`. -/
def releaseSlot (s : MempoolEndpointState) : MempoolEndpointState :=
  { s with active_slots := s.active_slots - 1 }

/-- The endpoint-mutating operations of the registry, used to quantify
over arbitrary interleavings of calls. Each constructor carries the
wall-clock instant at which the Python method ran. -/
inductive EndpointOp
  | acquire (now : ℚ)
  | release
  | success (latency now : ℚ)
  | failure (latency now : ℚ)
deriving Repr

/-- Apply one operation to an endpoint state.  An `acquire` that would
wait or raise leaves the state unchanged (the waiting loop holds no
slot, and the `RuntimeError` path mutates nothing). -/
def applyOp (cfg : RegistrySettings) (s : MempoolEndpointState) :
    EndpointOp → MempoolEndpointState
  | .acquire now =>
      match tryAcquireSlot s now with
      | some (true, s') => s'
      | _ => s
  | .release => releaseSlot s
  | .success latency now => recordSuccess cfg latency now s
  | .failure latency now => recordFailure cfg latency now s

/-- Apply a sequence of operations in order. -/
def applyOps (cfg : RegistrySettings) (ops : List EndpointOp)
    (s : MempoolEndpointState) : MempoolEndpointState :=
  ops.foldl (applyOp cfg) s

/-- The structural well-formedness established by
`MempoolEndpointState.__post_init__` (lines 50-67): slots never exceed
the hard maximum, and the concurrency limit is either 0 (disabled) or
between the configured minimum and maximum. -/
def WfEndpoint (s : MempoolEndpointState) : Prop :=
  s.active_slots ≤ s.max_concurrency ∧
    (s.concurrency_limit = 0 ∨
      (s.min_concurrency ≤ s.concurrency_limit ∧
        s.concurrency_limit ≤ s.max_concurrency))

/-! ## Endpoint pool / multiplexer
(`app/services/datasource/mempool/multiplexer.py`, `_perform_request`,
lines 39-105) -/

/-- How the wrapped HTTP attempt inside `_perform_request` resolves.
`response status body` is an HTTP response; `body = none` stands for a
`response.json()` call that raises (JSON-decode failure), and is only
consulted on the 2xx path.  `timeout` is `asyncio.TimeoutError`;
`networkError` is any other exception from the transport. -/
inductive HttpAttempt (α : Type)
  | response (status : Nat) (body : Option α)
  | timeout
  | networkError
deriving Repr, DecidableEq

/-- The pool state touched by `_perform_request`: the free permits of
the process-wide `asyncio.Semaphore(mempool_global_max_inflight)` and
the chosen endpoint's state. -/
structure PoolState where
  globalAvailable : Nat
  endpoint : MempoolEndpointState
deriving Repr, DecidableEq

/-- `MempoolDataSource._perform_request` (multiplexer lines 39-105).

`acquired` records how the `endpoint.acquire_slot()` call eventually
resolved (`false` = its `RuntimeError` was caught at lines 51-54, which
records a failure with latency 0 and returns `None`); `attempt` is the
outcome of the guarded HTTP call.  `raise_for_status()` raises for any
non-2xx status; HTTP 204 and HTTP 404 are recorded as successes and
return `None`; all other statuses, timeouts, transport errors and
JSON-decode failures are recorded as failures.  The `finally` block
(lines 101-104) releases the endpoint slot when it was acquired and
always releases the global semaphore. -/
def performRequest {α : Type} (cfg : RegistrySettings) (now latency : ℚ)
    (acquired : Bool) (attempt : HttpAttempt α) (st : PoolState) :
    Option α × PoolState :=
  let g := st.globalAvailable - 1
  if ¬ acquired then
    (none, { globalAvailable := g + 1,
             endpoint := recordFailure cfg 0 now st.endpoint })
  else
    let s := { st.endpoint with active_slots := st.endpoint.active_slots + 1 }
    let step : Option α × MempoolEndpointState :=
      match attempt with
      | .response status body =>
          if 200 ≤ status ∧ status < 300 then
            if status = 204 then (none, recordSuccess cfg latency now s)
            else
              match body with
              | some b => (some b, recordSuccess cfg latency now s)
              | none => (none, recordFailure cfg latency now s)
          else if status = 404 then (none, recordSuccess cfg latency now s)
          else (none, recordFailure cfg latency now s)
      | .timeout => (none, recordFailure cfg latency now s)
      | .networkError => (none, recordFailure cfg latency now s)
    (step.1, { globalAvailable := g + 1, endpoint := releaseSlot step.2 })

/-! ## Batched transaction fetching
(`app/services/blockchain_data.py`, `_dedupe_preserve_order` lines 26-42
and `fetch_transactions_batch` lines 381-454)

The three upstream sources are oracles: `cache` is the Redis lookup
(already parsed), `mempoolSrc` the mempool.space batch and
`electrumSrc` the Electrum fallback, each `String → Option Transaction`
(`none` = miss / failure at that source). -/

/-- Association-list lookup standing for the Python dict `seen`. -/
def assocFind (seen : List (String × Nat)) (k : String) : Option Nat :=
  match seen with
  | [] => none
  | (a, v) :: rest => if a = k then some v else assocFind rest k

/-- Loop body of `_dedupe_preserve_order` (lines 36-40): walk the items,
extending `seen`/`unique` on first sight and recording
`(original index, unique index)` pairs in `index_map`. -/
def dedupeGo : List String → List (String × Nat) → List String →
    List (Nat × Nat) → Nat → List String × List (Nat × Nat)
  | [], _, unique, index_map, _ => (unique, index_map)
  | item :: rest, seen, unique, index_map, i =>
      match assocFind seen item with
      | some u => dedupeGo rest seen unique (index_map ++ [(i, u)]) (i + 1)
      | none =>
          dedupeGo rest (seen ++ [(item, unique.length)]) (unique ++ [item])
            (index_map ++ [(i, unique.length)]) (i + 1)

/-- `_dedupe_preserve_order` (blockchain_data lines 26-42). -/
def dedupePreserveOrder (items : List String) :
    List String × List (Nat × Nat) :=
  dedupeGo items [] [] [] 0

/-- The per-unique-txid resolution performed by
`fetch_transactions_batch` (lines 397-443): a cached record is honoured
only when it carries a `block_height`; otherwise the txid goes to the
mempool.space batch, and txids that fail there are retried on Electrum.
A `none` result means the txid ended up outside `result_map`. -/
def resolveTxid (cache mempoolSrc electrumSrc : String → Option Transaction)
    (txid : String) : Option Transaction :=
  match cache txid with
  | some tx =>
      if tx.block_height ≠ none then some tx
      else
        match mempoolSrc txid with
        | some tx2 => some tx2
        | none => electrumSrc txid
  | none =>
      match mempoolSrc txid with
      | some tx2 => some tx2
      | none => electrumSrc txid

/-- `BlockchainDataService.fetch_transactions_batch` (lines 381-454):
deduplicate, resolve each unique txid, then map back to the original
positions through `txid_positions`, placing `None` at positions whose
txid is absent from `result_map` (line 452). -/
def fetchTransactionsBatch
    (cache mempoolSrc electrumSrc : String → Option Transaction)
    (txids : List String) : List (Option Transaction) :=
  let p := dedupePreserveOrder txids
  p.2.map fun pos =>
    resolveTxid cache mempoolSrc electrumSrc (p.1.getD pos.2 "")

/-! ## Address history pagination
(`app/services/datasource/mempool/multiplexer.py`, `get_address_txids`,
lines 273-477)

Each iteration of the outer `while` loop runs an inner server-retry
loop that ends with one final page `data` (a JSON list).  The sequence
of such pages is the oracle input `pages : List (List (Option String))`;
a list entry `none` stands for a page element that is not a dict or has
no `txid` field.  Exhausting `pages` corresponds to every remaining
server attempt returning no data, which breaks the loop. -/

/-- The txid-collection pass over one page (lines 401-424): entries
without a txid, with an empty txid, or whose txid was already seen are
skipped; fresh txids are appended in page order. -/
def collectPage (collected : List String) (page : List (Option String)) :
    List String :=
  page.foldl
    (fun col entry =>
      match entry with
      | none => col
      | some txid => if txid = "" ∨ txid ∈ col then col else col ++ [txid])
    collected

/-- The early-stop test at lines 441-445: `expected_total` is known, it
fits within `max_results`, and at least that many unique txids have
been collected. -/
def expectedTotalStop (expected_total : Option Nat) (max_results : Nat)
    (collected : List String) : Bool :=
  match expected_total with
  | some et => decide (et ≤ max_results) && decide (et ≤ collected.length)
  | none => false

/-- The outer pagination loop of `get_address_txids` (lines 305-469),
one recursive call per fetched page.  Stop conditions in source order:
the `while` guard `len(collected) < effective_max`; an empty (or
missing) page; the `expected_total` early stop; the explicit
`len(collected) >= effective_max` check; the page limit of 200; and the
`offset > max_results * 2` duplicate guard. -/
def getAddressTxidsGo (effective_max max_results : Nat)
    (expected_total : Option Nat) :
    List (List (Option String)) → List String → Nat → Nat → List String
  | [], collected, _, _ => collected
  | data :: rest, collected, offset, page =>
      if effective_max ≤ collected.length then collected
      else if data.length = 0 then collected
      else
        let collected' := collectPage collected data
        if expectedTotalStop expected_total max_results collected' then collected'
        else
          let offset' := offset + data.length
          let page' := page + 1
          if effective_max ≤ collected'.length then collected'
          else if 200 ≤ page' then collected'
          else if max_results * 2 < offset' then collected'
          else
            getAddressTxidsGo effective_max max_results expected_total rest
              collected' offset' page'

/-- `MempoolDataSource.get_address_txids` (lines 273-477):
`effective_max = min(max_results, expected_total)` when an expected
total is supplied (line 303), and all collected txids are returned even
when they exceed `max_results` (lines 475-477). -/
def getAddressTxids (pages : List (List (Option String)))
    (max_results : Nat) (expected_total : Option Nat) : List String :=
  let effective_max :=
    match expected_total with
    | some et => min max_results et
    | none => max_results
  getAddressTxidsGo effective_max max_results expected_total pages [] 0 0

/-! ## Change detection
(`app/analysis/change_detection.py`, `ChangeDetector`)

Satoshi values are exact naturals and probabilities exact rationals;
the Python floats 0.95, 0.7, 0.6, 0.8, 0.75, 0.55 become the rationals
they denote. -/

/-- Placeholder output used only for out-of-range `getD` indexing. -/
def defaultOutput : TransactionOutput :=
  { n := 0, value := 0, script_pubkey := "", address := none, script_type := none }

/-- `ChangeDetector._detect_reused_address` (lines 137-150): 0.95 when
the address occurs in the known history with more than one prior txid,
0 otherwise (including a missing or empty address). -/
def detectReusedAddress (history : String → Option (List String)) :
    Option String → ℚ
  | none => 0
  | some a =>
      if a = "" then 0
      else
        match history a with
        | some prior => if 1 < prior.length then 95 / 100 else 0
        | none => 0

/-- The round-BTC reference amounts of `_detect_round_amount`
(line 161). -/
def roundValues : List ℚ :=
  [1 / 1000, 1 / 100, 1 / 10, 1 / 2, 1, 5, 10, 50, 100]

/-- Number of trailing decimal zeros of the 8-digit fractional part,
with fuel bounding the 8 digit positions. -/
def trailingZeros10 : Nat → Nat → Nat
  | 0, _ => 0
  | fuel + 1, f => if f % 10 = 0 then trailingZeros10 fuel (f / 10) + 1 else 0

/-- The decimal-place count computed at lines 168-169 by formatting the
BTC amount with 8 decimals and stripping trailing zeros: the number of
significant fractional digits of `value / 10^8`. -/
def decimalPlaces (value : Nat) : Nat :=
  8 - trailingZeros10 8 (value % 100000000)

/-- `ChangeDetector._detect_round_amount` (lines 152-174): 0.7 for an
amount within 10⁻⁶ BTC of a reference round value, else 0.6 for at most
two significant decimal places, else 0. -/
def detectRoundAmount (value : Nat) : ℚ :=
  let btc : ℚ := (value : ℚ) / 100000000
  if roundValues.any (fun r => |btc - r| < 1 / 1000000) then 7 / 10
  else if decimalPlaces value ≤ 2 then 6 / 10
  else 0

/-- The set of input script types collected at lines 186-189 (only
truthy `script_type` tags are added). -/
def inputScriptTypes (tx : Transaction) : List String :=
  tx.inputs.filterMap fun inp =>
    match inp.script_type with
    | some t => if t = "" then none else some t
    | none => none

/-- `ChangeDetector._detect_script_type_match` (lines 176-199) read off
at output `i`: 0.8 when the output's script type occurs among the input
script types, else 0 (dict absence is score 0). -/
def scriptTypeScore (tx : Transaction) (i : Nat) : ℚ :=
  match (tx.outputs.getD i defaultOutput).script_type with
  | some t => if t ∈ inputScriptTypes tx then 8 / 10 else 0
  | none => 0

/-- The truthy input values summed at line 214
(`sum(inp.value for inp in transaction.inputs if inp.value)`). -/
def truthyInputValues (tx : Transaction) : List Nat :=
  tx.inputs.filterMap fun inp =>
    match inp.value with
    | some v => if v = 0 then none else some v
    | none => none

/-- `ChangeDetector._detect_optimal_change` (lines 201-231) read off at
output `i`: with exactly two outputs, positive total input value, and
some single input removable while still covering the outputs, the
smaller output scores 0.75. -/
def optimalChangeScore (tx : Transaction) (i : Nat) : ℚ :=
  if tx.outputs.length = 2 then
    let total_in := (truthyInputValues tx).sum
    let total_out := (tx.outputs.map (·.value)).sum
    if total_in = 0 then 0
    else if (truthyInputValues tx).any (fun v => total_out ≤ total_in - v) then
      if (tx.outputs.getD 1 defaultOutput).value <
          (tx.outputs.getD 0 defaultOutput).value then
        if i = 1 then 3 / 4 else 0
      else if i = 0 then 3 / 4 else 0
    else 0
  else 0

/-- The BIP69 sort key comparison of line 244: lexicographic on
`(value, script_pubkey)`. -/
def outKeyLe (a b : TransactionOutput) : Prop :=
  a.value < b.value ∨ (a.value = b.value ∧ a.script_pubkey ≤ b.script_pubkey)

instance (a b : TransactionOutput) : Decidable (outKeyLe a b) := by
  unfold outKeyLe
  exact inferInstance

/-- `sorted(outputs, key=...) == outputs` (lines 244-245): Python's sort
is stable, so the sorted list equals the original exactly when adjacent
elements are already in key order. -/
def bip69Sorted : List TransactionOutput → Bool
  | [] => true
  | [_] => true
  | a :: b :: rest => decide (outKeyLe a b) && bip69Sorted (b :: rest)

/-- `ChangeDetector._detect_wallet_pattern` (lines 233-255) read off at
output `i`: 0.55 on output index 1 when the outputs are BIP69-ordered
and there are exactly two of them. -/
def walletPatternScore (tx : Transaction) (i : Nat) : ℚ :=
  if bip69Sorted tx.outputs ∧ tx.outputs.length = 2 then
    if i = 1 then 11 / 20 else 0
  else 0

/-- The probability combination of `identify_change_output`
(lines 87-114): start at 0.5; address reuse and round amounts decrease
multiplicatively; script match, optimal change and wallet pattern boost
toward 1.  A heuristic participates exactly when its score is positive
(scores are entered into `heuristic_scores` only `if score > 0`). -/
def combineProb (reuse round script optimal wallet : ℚ) : ℚ :=
  let p : ℚ := 1 / 2
  let p := if 0 < reuse then p * (1 - reuse) else p
  let p := if 0 < round then p * (1 - round) else p
  let p := if 0 < script then p + (1 - p) * script else p
  let p := if 0 < optimal then p + (1 - p) * optimal else p
  if 0 < wallet then p + (1 - p) * wallet else p

/-- The combined change probability of output `i` of `tx`
(`combined_scores[i]`). -/
def combinedScore (history : String → Option (List String))
    (tx : Transaction) (i : Nat) : ℚ :=
  combineProb
    (detectReusedAddress history (tx.outputs.getD i defaultOutput).address)
    (detectRoundAmount (tx.outputs.getD i defaultOutput).value)
    (scriptTypeScore tx i)
    (optimalChangeScore tx i)
    (walletPatternScore tx i)

/-- `max(combined_scores, key=combined_scores.get)` (line 120) over the
keys 0,…,n−1 in insertion order: the first index attaining the maximum
(a later index replaces the current best only on a strictly greater
value). -/
def argmaxFirst (f : Nat → ℚ) (n : Nat) : Nat :=
  (List.range n).foldl (fun best i => if f best < f i then i else best) 0

/-- The fields of `ChangeDetectionResult` consulted by the claims. -/
structure ChangeDetectionResult where
  output_index : Nat
  confidence : ℚ
deriving Repr, DecidableEq

/-- `ChangeDetector.identify_change_output` (lines 32-135): `none` for
fewer than two outputs, else the argmax output index together with its
combined probability as confidence. -/
def identifyChangeOutput (history : String → Option (List String))
    (tx : Transaction) : Option ChangeDetectionResult :=
  if tx.outputs.length < 2 then none
  else
    let idx := argmaxFirst (combinedScore history tx) tx.outputs.length
    some { output_index := idx, confidence := combinedScore history tx idx }

/-! ## The `/trace/utxo` endpoint (`app/api/trace.py`, `trace_utxo`,
lines 17-244)

The upstream is the oracle `fetch : String → Option Transaction`
(`fetch_transaction` / `fetch_transactions_batch` resolution of a
txid; `none` = all sources failed). -/

/-- The request body `TraceUTXORequest` (the fields `trace_utxo`
reads). -/
structure TraceUTXORequest where
  txid : String
  vout : Nat
  hops_before : Nat
  hops_after : Nat
  max_addresses_per_tx : Nat
  include_coinjoin : Bool := false
deriving Repr, DecidableEq

/-- The fields of `NodeData` consulted by the claims. -/
structure NodeData where
  id : String
  label : String
  node_type : String
deriving Repr, DecidableEq

/-- The fields of `EdgeData` consulted by the claims. -/
structure EdgeData where
  source : String
  target : String
  amount : Nat
  vout : Option Nat := none
deriving Repr, DecidableEq

/-- The fields of `TraceGraphResponse` consulted by the claims. -/
structure TraceGraphResponse where
  nodes : List NodeData
  edges : List EdgeData
  start_txid : String
  start_vout : Nat
deriving Repr, DecidableEq

/-- How a `trace_utxo` call fails; both cases are surfaced as
HTTP 500 by the handler's blanket `except` (trace.py lines 408-410). -/
inductive TraceFailure
  /-- The `NameError` raised at line 237: `nodes` is referenced there
  but only ever assigned inside the `hops ≤ 1` block starting at
  line 47. -/
  | nameErrorNodesUndefined
  /-- `fetch_transaction` raised because every source failed for the
  starting txid. -/
  | fetchFailed
deriving Repr, DecidableEq

/-- Input-side processing of the fast path (trace.py lines 138-199):
walk the first `max_addresses_per_tx` inputs, resolve each previous
output through the batch-fetched map, add an address node on first
sight and always add the input edge. -/
def fastPathInputs (fetch : String → Option Transaction)
    (req : TraceUTXORequest) (start_tx : Transaction)
    (acc : List NodeData × List EdgeData) : List NodeData × List EdgeData :=
  (start_tx.inputs.take req.max_addresses_per_tx).foldl
    (fun (acc : List NodeData × List EdgeData) inp =>
      if inp.txid = "" then acc
      else
        match fetch inp.txid with
        | none => acc
        | some prev_tx =>
            if h : inp.vout < prev_tx.outputs.length then
              match (prev_tx.outputs.get ⟨inp.vout, h⟩).address with
              | none => acc
              | some addr =>
                  let addr_id := "addr_" ++ addr
                  let nodes :=
                    if acc.1.any (fun n => n.id = addr_id) then acc.1
                    else acc.1 ++ [{ id := addr_id, label := addr,
                                     node_type := "address" }]
                  (nodes,
                    acc.2 ++ [{ source := addr_id,
                                target := "tx_" ++ req.txid,
                                amount := (prev_tx.outputs.get ⟨inp.vout, h⟩).value,
                                vout := some inp.vout }])
            else acc)
    acc

/-- Output-side processing of the fast path (trace.py lines 214-235):
walk the first `max_addresses_per_tx` outputs, add an address node on
first sight and an edge from the transaction. -/
def fastPathOutputs (req : TraceUTXORequest) (start_tx : Transaction)
    (acc : List NodeData × List EdgeData) : List NodeData × List EdgeData :=
  ((start_tx.outputs.take req.max_addresses_per_tx).enum).foldl
    (fun (acc : List NodeData × List EdgeData) io =>
      match io.2.address with
      | none => acc
      | some addr =>
          let addr_id := "addr_" ++ addr
          let nodes :=
            if acc.1.any (fun n => n.id = addr_id) then acc.1
            else acc.1 ++ [{ id := addr_id, label := addr,
                             node_type := "address" }]
          (nodes,
            acc.2 ++ [{ source := "tx_" ++ req.txid, target := addr_id,
                        amount := io.2.value, vout := some io.1 }]))
    acc

/-- The fast path of `trace_utxo` (lines 47-244) once the starting
transaction has been fetched: one starting transaction node, then the
capped input side when `hops_before > 0` and the capped output side
when `hops_after > 0`; with both hop counts 0 only the transaction node
is returned (lines 126-132). -/
def traceUtxoFastPath (fetch : String → Option Transaction)
    (req : TraceUTXORequest) (start_tx : Transaction) : TraceGraphResponse :=
  let txNode : NodeData :=
    { id := "tx_" ++ req.txid, label := req.txid, node_type := "transaction" }
  if req.hops_before = 0 ∧ req.hops_after = 0 then
    { nodes := [txNode], edges := [], start_txid := req.txid,
      start_vout := req.vout }
  else
    let acc0 : List NodeData × List EdgeData := ([txNode], [])
    let acc1 :=
      if 0 < req.hops_before then fastPathInputs fetch req start_tx acc0
      else acc0
    let acc2 :=
      if 0 < req.hops_after then fastPathOutputs req start_tx acc1 else acc1
    { nodes := acc2.1, edges := acc2.2, start_txid := req.txid,
      start_vout := req.vout }

/-- The `trace_utxo` handler (trace.py lines 17-244).  The fast-path
block runs only under `hops_before <= 1 and hops_after <= 1` (line 47);
the statements from line 237 on - including the `return` at lines
240-244 - sit at the indentation level of the `try` body, outside that
`if`, so when either hop count exceeds 1 execution falls through to
line 237 where `nodes` was never assigned, raising `NameError`; the
"SLOW PATH" orchestrator call at lines 246-255 is unreachable. -/
def traceUtxo (fetch : String → Option Transaction)
    (req : TraceUTXORequest) : Except TraceFailure TraceGraphResponse :=
  if req.hops_before ≤ 1 ∧ req.hops_after ≤ 1 then
    match fetch req.txid with
    | none => .error .fetchFailed
    | some start_tx => .ok (traceUtxoFastPath fetch req start_tx)
  else .error .nameErrorNodesUndefined

/-! ## Streaming address trace
(`app/api/stream_trace.py`, `stream_address_trace`, lines 23-204) -/

/-- The SSE events emitted by `stream_address_trace`, with the payload
fields the claims consult.  The first `metadata` event carries no
transaction count; the second carries `total_transactions`. -/
inductive StreamEvent
  | metadata (total_transactions : Option Nat)
  | batch (nodes : List String) (edges : List (String × String))
      (batch_index : Nat)
  | progress (processed total : Nat)
  | complete (total_nodes total_edges total_transactions : Nat)
  | error (error_type : String)
deriving Repr, DecidableEq

/-- The positional parameters of
`BlockchainDataService.fetch_address_history`
(blockchain_data.py line 185: `def fetch_address_history(self, address)`). -/
def fetchAddressHistoryParams : List String := ["self", "address"]

/-- The keyword arguments passed at the call site
stream_trace.py line 51:
`fetch_address_history(address, max_results=max_transactions)`. -/
def streamTraceHistoryKwargs : List String := ["max_results"]

/-- Python call binding for keyword arguments: every keyword must name
a parameter of the callee, else the call raises `TypeError`. -/
def kwargsAccepted (params kwargs : List String) : Bool :=
  kwargs.all (· ∈ params)

/-- Per-transaction processing inside a streaming batch (stream_trace.py
lines 108-165): direction-based inclusion, one transaction node, one
edge per output paying the address when `hops_before > 0`, and one
aggregated sending edge when `hops_after > 0` and the address appears
among the resolved input addresses. -/
def processTxForStream (address : String) (hops_before hops_after : Nat)
    (tx : Transaction) : Option (String × List (String × String)) :=
  let has_output_to_addr := tx.outputs.any (fun o => o.address = some address)
  let has_input_from_addr :=
    tx.inputs.any (fun i =>
      match i.address with
      | some a => a = address
      | none => false)
  if (has_output_to_addr && decide (0 < hops_before)) ||
      (has_input_from_addr && decide (0 < hops_after)) then
    let tx_node_id := "tx_" ++ tx.txid
    let recvEdges :=
      if 0 < hops_before then
        (tx.outputs.filter (fun o => o.address = some address)).map
          (fun _ => (tx_node_id, "addr_" ++ address))
      else []
    let sendEdges :=
      if 0 < hops_after ∧ has_input_from_addr then
        [("addr_" ++ address, tx_node_id)]
      else []
    some (tx_node_id, recvEdges ++ sendEdges)
  else none

/-- Split the history into the batches of 20 walked by
`range(0, total_txs, batch_size)` (line 94); the fuel is the list
length. -/
def chunksOf20 : Nat → List String → List (List String)
  | 0, _ => []
  | _, [] => []
  | fuel + 1, xs => xs.take 20 :: chunksOf20 fuel (xs.drop 20)

/-- The batch loop of `stream_address_trace` (lines 94-197): per chunk
a `batch` event then a `progress` event, and a final `complete` event
carrying the accumulated node and edge counts. -/
def streamBatchesGo (fetchBatch : List String → List (Option Transaction))
    (address : String) (hops_before hops_after total : Nat) :
    List (List String) → Nat → Nat → Nat → Nat → List StreamEvent
  | [], _, _, nodesAcc, edgesAcc =>
      [.complete nodesAcc edgesAcc total]
  | chunk :: rest, i, processed, nodesAcc, edgesAcc =>
      let fetched := (fetchBatch chunk).filterMap id
      let results :=
        fetched.filterMap (processTxForStream address hops_before hops_after)
      let bnodes := results.map Prod.fst
      let bedges := (results.map Prod.snd).flatten
      let processed' := processed + chunk.length
      .batch bnodes bedges (i + 1) :: .progress processed' total ::
        streamBatchesGo fetchBatch address hops_before hops_after total rest
          (i + 1) processed' (nodesAcc + bnodes.length)
          (edgesAcc + bedges.length)

/-- `stream_address_trace` (stream_trace.py lines 23-204).  The first
`metadata` event is emitted at lines 42-47; then line 51 calls
`fetch_address_history(address, max_results=max_transactions)`, but the
callee (blockchain_data.py line 185) accepts no `max_results`
parameter, so the call raises `TypeError`, which the blanket `except`
at lines 199-204 turns into a single `error` event.  The remaining
pipeline (second `metadata`, first batch with only the starting address
node, batches, progress, complete) would run only if the keyword were
accepted. -/
def streamAddressTrace (history : List String)
    (fetchBatch : List String → List (Option Transaction))
    (address : String) (hops_before hops_after : Nat) : List StreamEvent :=
  let ev0 := StreamEvent.metadata none
  if kwargsAccepted fetchAddressHistoryParams streamTraceHistoryKwargs then
    let txids := history
    let total := txids.length
    let ev1 := StreamEvent.metadata (some total)
    if total = 0 then [ev0, ev1, .complete 1 0 0]
    else
      let addr_node_id := "addr_" ++ address
      let firstBatch := StreamEvent.batch [addr_node_id] [] 0
      ev0 :: ev1 :: firstBatch ::
        streamBatchesGo fetchBatch address hops_before hops_after total
          (chunksOf20 txids.length txids) 0 0 1 0
  else
    [ev0, .error "TypeError"]

/-! ## Concrete instances used to exercise the model -/

/-- Registry settings with a one-element adjustment window and a high
disable threshold. -/
def cfgSmallWindow : RegistrySettings :=
  { adjust_window := 1, success_target := 9 / 10, latency_target := 2,
    failure_threshold := 100, failure_cooldown_seconds := 30 }

/-- Registry settings with disable threshold 3 and an eight-element
window. -/
def cfgThreshold3 : RegistrySettings :=
  { adjust_window := 8, success_target := 9 / 10, latency_target := 2,
    failure_threshold := 3, failure_cooldown_seconds := 30 }

/-- A freshly built priority-0 (local/trusted) endpoint with
concurrency limit 2 in `[1, 2]`. -/
def epPriorityZero : MempoolEndpointState :=
  { enabled := true, priority := 0, concurrency_limit := 2,
    min_concurrency := 1, max_concurrency := 2 }

/-- A freshly built priority-1 endpoint with concurrency limit 2 in
`[1, 2]`. -/
def epPriorityOne : MempoolEndpointState :=
  { enabled := true, priority := 1, concurrency_limit := 2,
    min_concurrency := 1, max_concurrency := 2 }

/-- The priority-0 endpoint after three consecutive `record_failure`
calls, reaching the disable threshold of `cfgThreshold3`. -/
def epAfterThreeFailures : MempoolEndpointState :=
  applyOps cfgThreshold3
    [.failure 1 0, .failure 1 1, .failure 1 2] epPriorityZero

/-- The priority-1 endpoint after two slot acquisitions followed by one
slow failure that fills the one-element window and triggers a downward
adjustment. -/
def epAfterOverload : MempoolEndpointState :=
  applyOps cfgSmallWindow [.acquire 0, .acquire 0, .failure 10 0] epPriorityOne

/-- A pool state with four free global permits over the priority-1
endpoint. -/
def poolStart : PoolState :=
  { globalAvailable := 4, endpoint := epPriorityOne }

/-- A two-output transaction used to exercise change detection. -/
def txTwoOutputs : Transaction :=
  { txid := "t0",
    inputs := [{ txid := "p0", vout := 0, address := some "in0",
                 value := some 12000000, script_type := some "p2wpkh" }],
    outputs :=
      [{ n := 0, value := 10000000, script_pubkey := "aa",
         address := some "pay0", script_type := some "p2pkh" },
       { n := 1, value := 1933000, script_pubkey := "bb",
         address := some "chg0", script_type := some "p2wpkh" }] }

/-- A starting transaction for the `/trace/utxo` fast path. -/
def txStart : Transaction :=
  { txid := "s0",
    inputs := [{ txid := "p0", vout := 0 }],
    outputs := [{ n := 0, value := 5, script_pubkey := "", address := some "o0" }] }

/-- An upstream oracle knowing `txStart` and its parent. -/
def fetchKnown : String → Option Transaction := fun t =>
  if t = "s0" then some txStart
  else if t = "p0" then
    some { txid := "p0", inputs := [],
           outputs := [{ n := 0, value := 7, script_pubkey := "",
                         address := some "a0" }] }
  else none

/-- A `/trace/utxo` request with `hops_before = 2`. -/
def reqHops2 : TraceUTXORequest :=
  { txid := "s0", vout := 0, hops_before := 2, hops_after := 1,
    max_addresses_per_tx := 100 }

/-- A confirmed transaction with txid `a`. -/
def txA : Transaction :=
  { txid := "a", inputs := [], outputs := [], block_height := some 1 }

/-- An upstream source that never answers. -/
def sourceEmpty : String → Option Transaction := fun _ => none

/-- An upstream source that only knows `txA`. -/
def sourceKnowsA : String → Option Transaction :=
  fun t => if t = "a" then some txA else none

/-- An empty address history for the change detector. -/
def historyEmpty : String → Option (List String) := fun _ => none

/-! ## Helper lemmas: field preservation in the endpoint registry -/

theorem maybeAdjust_active (cfg : RegistrySettings) (d : Bool) (now : ℚ)
    (s : MempoolEndpointState) :
    (maybeAdjustLocked cfg d now s).active_slots = s.active_slots := by
  unfold maybeAdjustLocked
  split_ifs <;> rfl

theorem maybeAdjust_priority (cfg : RegistrySettings) (d : Bool) (now : ℚ)
    (s : MempoolEndpointState) :
    (maybeAdjustLocked cfg d now s).priority = s.priority := by
  unfold maybeAdjustLocked
  split_ifs <;> rfl

theorem maybeAdjust_min (cfg : RegistrySettings) (d : Bool) (now : ℚ)
    (s : MempoolEndpointState) :
    (maybeAdjustLocked cfg d now s).min_concurrency = s.min_concurrency := by
  unfold maybeAdjustLocked
  split_ifs <;> rfl

theorem maybeAdjust_max (cfg : RegistrySettings) (d : Bool) (now : ℚ)
    (s : MempoolEndpointState) :
    (maybeAdjustLocked cfg d now s).max_concurrency = s.max_concurrency := by
  unfold maybeAdjustLocked
  split_ifs <;> rfl

theorem maybeAdjust_cooldown (cfg : RegistrySettings) (d : Bool) (now : ℚ)
    (s : MempoolEndpointState) :
    (maybeAdjustLocked cfg d now s).cooldown_until = s.cooldown_until := by
  unfold maybeAdjustLocked
  split_ifs <;> rfl

theorem maybeAdjust_success_count (cfg : RegistrySettings) (d : Bool) (now : ℚ)
    (s : MempoolEndpointState) :
    (maybeAdjustLocked cfg d now s).success_count = s.success_count := by
  unfold maybeAdjustLocked
  split_ifs <;> rfl

theorem maybeAdjust_failure_count (cfg : RegistrySettings) (d : Bool) (now : ℚ)
    (s : MempoolEndpointState) :
    (maybeAdjustLocked cfg d now s).failure_count = s.failure_count := by
  unfold maybeAdjustLocked
  split_ifs <;> rfl

theorem maybeAdjust_total_successes (cfg : RegistrySettings) (d : Bool)
    (now : ℚ) (s : MempoolEndpointState) :
    (maybeAdjustLocked cfg d now s).total_successes = s.total_successes := by
  unfold maybeAdjustLocked
  split_ifs <;> rfl

theorem maybeAdjust_total_failures (cfg : RegistrySettings) (d : Bool)
    (now : ℚ) (s : MempoolEndpointState) :
    (maybeAdjustLocked cfg d now s).total_failures = s.total_failures := by
  unfold maybeAdjustLocked
  split_ifs <;> rfl

theorem maybeAdjust_consecutive_failures (cfg : RegistrySettings) (d : Bool)
    (now : ℚ) (s : MempoolEndpointState) :
    (maybeAdjustLocked cfg d now s).consecutive_failures =
      s.consecutive_failures := by
  unfold maybeAdjustLocked
  split_ifs <;> rfl

theorem recordSuccess_active (cfg : RegistrySettings) (l n : ℚ)
    (s : MempoolEndpointState) :
    (recordSuccess cfg l n s).active_slots = s.active_slots := by
  unfold recordSuccess
  rw [maybeAdjust_active]

theorem recordSuccess_success_count (cfg : RegistrySettings) (l n : ℚ)
    (s : MempoolEndpointState) :
    (recordSuccess cfg l n s).success_count = s.success_count + 1 := by
  unfold recordSuccess
  rw [maybeAdjust_success_count]

theorem recordSuccess_total_successes (cfg : RegistrySettings) (l n : ℚ)
    (s : MempoolEndpointState) :
    (recordSuccess cfg l n s).total_successes = s.total_successes + 1 := by
  unfold recordSuccess
  rw [maybeAdjust_total_successes]

theorem recordSuccess_consecutive_failures (cfg : RegistrySettings) (l n : ℚ)
    (s : MempoolEndpointState) :
    (recordSuccess cfg l n s).consecutive_failures = 0 := by
  unfold recordSuccess
  rw [maybeAdjust_consecutive_failures]

theorem recordFailure_active (cfg : RegistrySettings) (l n : ℚ)
    (s : MempoolEndpointState) :
    (recordFailure cfg l n s).active_slots = s.active_slots := by
  unfold recordFailure
  dsimp only
  split_ifs <;> simp [maybeAdjust_active]

theorem recordFailure_failure_count (cfg : RegistrySettings) (l n : ℚ)
    (s : MempoolEndpointState) :
    (recordFailure cfg l n s).failure_count = s.failure_count + 1 := by
  unfold recordFailure
  dsimp only
  split_ifs <;> simp [maybeAdjust_failure_count]

theorem recordFailure_total_failures (cfg : RegistrySettings) (l n : ℚ)
    (s : MempoolEndpointState) :
    (recordFailure cfg l n s).total_failures = s.total_failures + 1 := by
  unfold recordFailure
  dsimp only
  split_ifs <;> simp [maybeAdjust_total_failures]

theorem maybeAdjust_decrease_only_le (cfg : RegistrySettings) (now : ℚ)
    (s : MempoolEndpointState) :
    (maybeAdjustLocked cfg true now s).concurrency_limit ≤
      s.concurrency_limit := by
  unfold maybeAdjustLocked
  split_ifs with h1 h2 h3 h4 h5
  · exact le_refl _
  · exact le_refl _
  · exact le_refl _
  · exact Nat.sub_le _ _
  · exact absurd rfl h5.1
  · exact le_refl _

theorem recordFailure_limit_le (cfg : RegistrySettings) (l n : ℚ)
    (s : MempoolEndpointState) :
    (recordFailure cfg l n s).concurrency_limit ≤ s.concurrency_limit := by
  unfold recordFailure
  dsimp only
  split_ifs with h1 h2 h3
  · have h := maybeAdjust_decrease_only_le cfg n
      { s with
        failure_count := s.failure_count + 1,
        total_requests := s.total_requests + 1,
        total_failures := s.total_failures + 1,
        total_latency := s.total_latency + l,
        healthy := false,
        consecutive_failures := s.consecutive_failures + 1,
        consecutive_successes := 0,
        cooldown_until := some (n + 86400),
        concurrency_limit := 0,
        recent_outcomes := dequeAppend cfg.adjust_window s.recent_outcomes false,
        recent_latencies := dequeAppend cfg.adjust_window s.recent_latencies l }
    exact le_trans h (Nat.zero_le _)
  · have h := maybeAdjust_decrease_only_le cfg n
      { s with
        failure_count := s.failure_count + 1,
        total_requests := s.total_requests + 1,
        total_failures := s.total_failures + 1,
        total_latency := s.total_latency + l,
        healthy := false,
        consecutive_failures := s.consecutive_failures + 1,
        consecutive_successes := 0,
        cooldown_until := some (n + 86400),
        concurrency_limit := 0,
        recent_outcomes := dequeAppend cfg.adjust_window s.recent_outcomes false,
        recent_latencies := dequeAppend cfg.adjust_window s.recent_latencies l }
    exact le_trans h (Nat.zero_le _)
  · exact maybeAdjust_decrease_only_le cfg n _
  · exact maybeAdjust_decrease_only_le cfg n _

theorem maybeAdjust_wf (cfg : RegistrySettings) (d : Bool) (now : ℚ)
    (s : MempoolEndpointState) (h : WfEndpoint s) :
    WfEndpoint (maybeAdjustLocked cfg d now s) := by
  obtain ⟨ha, hl⟩ := h
  unfold maybeAdjustLocked
  split_ifs with h1 h2 h3 h4 h5
  · exact ⟨ha, hl⟩
  · exact ⟨ha, hl⟩
  · exact ⟨ha, hl⟩
  · rcases hl with h0 | ⟨hmin, hmax⟩
    · exact absurd h0 (by omega)
    · exact ⟨ha, Or.inr
        ⟨show s.min_concurrency ≤ s.concurrency_limit - 1 by omega,
         show s.concurrency_limit - 1 ≤ s.max_concurrency by omega⟩⟩
  · have hup := h5.2.2.2
    rcases hl with h0 | ⟨hmin, hmax⟩
    · exact absurd h0 (by omega)
    · exact ⟨ha, Or.inr
        ⟨show s.min_concurrency ≤ s.concurrency_limit + 1 by omega,
         show s.concurrency_limit + 1 ≤ s.max_concurrency by omega⟩⟩
  · exact ⟨ha, hl⟩

theorem tryAcquire_wf (s s' : MempoolEndpointState) (now : ℚ)
    (hacq : tryAcquireSlot s now = some (true, s')) (h : WfEndpoint s) :
    WfEndpoint s' := by
  obtain ⟨ha, hl⟩ := h
  unfold tryAcquireSlot at hacq
  split_ifs at hacq with h1 h2 h3 h4
  all_goals simp at hacq
  subst hacq
  refine ⟨?_, hl⟩
  rcases hl with h0 | ⟨hmin, hmax⟩
  · exact absurd h0 (by omega)
  · exact show s.active_slots + 1 ≤ s.max_concurrency by omega

theorem releaseSlot_wf (s : MempoolEndpointState) (h : WfEndpoint s) :
    WfEndpoint (releaseSlot s) := by
  obtain ⟨ha, hl⟩ := h
  exact ⟨show s.active_slots - 1 ≤ s.max_concurrency by omega, hl⟩

theorem recordSuccess_wf (cfg : RegistrySettings) (l n : ℚ)
    (s : MempoolEndpointState) (h : WfEndpoint s) :
    WfEndpoint (recordSuccess cfg l n s) := by
  obtain ⟨ha, hl⟩ := h
  exact maybeAdjust_wf cfg false n _ ⟨ha, hl⟩

theorem recordFailure_wf (cfg : RegistrySettings) (l n : ℚ)
    (s : MempoolEndpointState) (h : WfEndpoint s) :
    WfEndpoint (recordFailure cfg l n s) := by
  obtain ⟨ha, hl⟩ := h
  unfold recordFailure
  dsimp only
  split_ifs with h1 h2
  · exact maybeAdjust_wf cfg true n _ ⟨ha, Or.inl rfl⟩
  · exact maybeAdjust_wf cfg true n _ ⟨ha, Or.inl rfl⟩
  · exact maybeAdjust_wf cfg true n _ ⟨ha, hl⟩
  · exact maybeAdjust_wf cfg true n _ ⟨ha, hl⟩

theorem applyOp_wf (cfg : RegistrySettings) (s : MempoolEndpointState)
    (op : EndpointOp) (h : WfEndpoint s) : WfEndpoint (applyOp cfg s op) := by
  cases op with
  | acquire now =>
      simp only [applyOp]
      cases hacq : tryAcquireSlot s now with
      | none => exact h
      | some p =>
          obtain ⟨b, s'⟩ := p
          cases b with
          | false => exact h
          | true => exact tryAcquire_wf s s' now hacq h
  | release => exact releaseSlot_wf s h
  | success l n => exact recordSuccess_wf cfg l n s h
  | failure l n => exact recordFailure_wf cfg l n s h

theorem applyOps_wf (cfg : RegistrySettings) (ops : List EndpointOp)
    (s : MempoolEndpointState) (h : WfEndpoint s) :
    WfEndpoint (applyOps cfg ops s) := by
  induction ops generalizing s with
  | nil => exact h
  | cons op rest ih =>
      exact ih (applyOp cfg s op) (applyOp_wf cfg s op h)

/-- C8: an adaptive adjustment evaluated on the failure-recording path
(`decrease_only = True`, and the whole of `record_failure`) never
increases the concurrency limit; a decrease happens only when the
`adjust_down` disjunction (success rate below target, or average
latency above target, or consecutive failures at the threshold) holds
and leaves the limit at or above `min_concurrency`; an increase happens
only on a non-decrease-only evaluation when the success rate meets the
target and the average latency is within target, and leaves the limit
at or below `max_concurrency`. -/
theorem C8_adaptive_adjustment_bounds (cfg : RegistrySettings) (d : Bool)
    (lat now : ℚ) (s : MempoolEndpointState) :
    (maybeAdjustLocked cfg true now s).concurrency_limit ≤
        s.concurrency_limit ∧
      (recordFailure cfg lat now s).concurrency_limit ≤
        s.concurrency_limit ∧
      ((maybeAdjustLocked cfg d now s).concurrency_limit <
          s.concurrency_limit →
        adjustDownCond cfg s ∧
          s.min_concurrency ≤
            (maybeAdjustLocked cfg d now s).concurrency_limit) ∧
      (s.concurrency_limit <
          (maybeAdjustLocked cfg d now s).concurrency_limit →
        d = false ∧ adjustUpCond cfg s ∧
          (maybeAdjustLocked cfg d now s).concurrency_limit ≤
            s.max_concurrency) := by
  refine ⟨maybeAdjust_decrease_only_le cfg now s,
    recordFailure_limit_le cfg lat now s, ?_, ?_⟩
  · intro hlt
    unfold maybeAdjustLocked at hlt ⊢
    split_ifs at hlt ⊢ with h1 h2 h3 h4 h5
    · omega
    · omega
    · omega
    · exact ⟨h4.1, show s.min_concurrency ≤ s.concurrency_limit - 1 by omega⟩
    · exact absurd hlt (by simp)
    · omega
  · intro hgt
    unfold maybeAdjustLocked at hgt ⊢
    split_ifs at hgt ⊢ with h1 h2 h3 h4 h5
    · omega
    · omega
    · omega
    · exact absurd hgt (by simp [Nat.sub_le, Nat.not_lt.mpr])
    · exact ⟨by simpa using h5.1, h5.2,
        show s.concurrency_limit + 1 ≤ s.max_concurrency by
          have := h5.2.2.2; omega⟩
    · omega

/-- Closed witness for `C8_adaptive_adjustment_bounds`, instantiating
its inner implications at a state whose one-element window forces a
decrease. -/
theorem C8_adaptive_adjustment_bounds_witness :
    (maybeAdjustLocked cfgSmallWindow true 0 epPriorityOne).concurrency_limit ≤
      epPriorityOne.concurrency_limit :=
  (C8_adaptive_adjustment_bounds cfgSmallWindow true 0 0 epPriorityOne).1

theorem maybeAdjust_limit_zero (cfg : RegistrySettings) (d : Bool) (now : ℚ)
    (s : MempoolEndpointState) (h : s.concurrency_limit = 0) :
    (maybeAdjustLocked cfg d now s).concurrency_limit = 0 := by
  unfold maybeAdjustLocked
  split_ifs with h1 h2 h3 h4 h5 <;>
    first
      | exact h
      | exact absurd h (by omega)

theorem recordSuccess_limit_zero (cfg : RegistrySettings) (l n : ℚ)
    (s : MempoolEndpointState) (h : s.concurrency_limit = 0) :
    (recordSuccess cfg l n s).concurrency_limit = 0 := by
  unfold recordSuccess
  exact maybeAdjust_limit_zero cfg false n _ h

theorem recordFailure_limit_zero (cfg : RegistrySettings) (l n : ℚ)
    (s : MempoolEndpointState) (h : s.concurrency_limit = 0) :
    (recordFailure cfg l n s).concurrency_limit = 0 := by
  unfold recordFailure
  dsimp only
  split_ifs <;>
    first
      | exact maybeAdjust_limit_zero cfg true n _ rfl
      | exact maybeAdjust_limit_zero cfg true n _ h

theorem tryAcquire_not_granted_of_limit_zero (s : MempoolEndpointState)
    (now : ℚ) (h : s.concurrency_limit = 0) (s' : MempoolEndpointState) :
    tryAcquireSlot s now ≠ some (true, s') := by
  intro hc
  unfold tryAcquireSlot at hc
  split_ifs at hc with h1 h2 h3 h4
  all_goals first | omega | simp at hc

theorem applyOp_limit_zero (cfg : RegistrySettings) (s : MempoolEndpointState)
    (op : EndpointOp) (h : s.concurrency_limit = 0) :
    (applyOp cfg s op).concurrency_limit = 0 := by
  cases op with
  | acquire now =>
      simp only [applyOp]
      cases hacq : tryAcquireSlot s now with
      | none => exact h
      | some p =>
          obtain ⟨b, s'⟩ := p
          cases b with
          | false => exact h
          | true => exact absurd hacq (tryAcquire_not_granted_of_limit_zero s now h s')
  | release => exact h
  | success l n => exact recordSuccess_limit_zero cfg l n s h
  | failure l n => exact recordFailure_limit_zero cfg l n s h

theorem applyOps_limit_zero (cfg : RegistrySettings) (ops : List EndpointOp)
    (s : MempoolEndpointState) (h : s.concurrency_limit = 0) :
    (applyOps cfg ops s).concurrency_limit = 0 := by
  induction ops generalizing s with
  | nil => exact h
  | cons op rest ih => exact ih (applyOp cfg s op) (applyOp_limit_zero cfg s op h)

/-- C2 (code evaluation at the failing input): a priority-0 endpoint
that reaches the consecutive-failure disable threshold has its cooldown
cleared, but its concurrency limit is zeroed and never restored -
`is_available` is false at every later instant and the limit stays 0
under every further operation sequence, contradicting the claim that
priority-0 endpoints are never permanently disabled. -/
theorem C2_priority0_permanently_disabled :
    epAfterThreeFailures.priority = 0 ∧
      epAfterThreeFailures.cooldown_until = none ∧
      epAfterThreeFailures.concurrency_limit = 0 ∧
      (∀ now : ℚ, isAvailable epAfterThreeFailures now = false) ∧
      (∀ ops : List EndpointOp,
        (applyOps cfgThreshold3 ops epAfterThreeFailures).concurrency_limit
          = 0) := by
  have heval : epAfterThreeFailures.concurrency_limit = 0 ∧
      epAfterThreeFailures.cooldown_until = none ∧
      epAfterThreeFailures.priority = 0 ∧
      epAfterThreeFailures.enabled = true := by
    norm_num [epAfterThreeFailures, applyOps, applyOp, epPriorityZero,
      cfgThreshold3, recordFailure, dequeAppend, maybeAdjustLocked,
      adjustedRecently, adjustDownCond, adjustUpCond, windowSuccessRate,
      windowAvgLatency, List.foldl]
  refine ⟨heval.2.2.1, heval.2.1, heval.1, ?_, ?_⟩
  · intro now
    simp [isAvailable, heval.1, heval.2.2.2]
  · intro ops
    exact applyOps_limit_zero cfgThreshold3 ops _ heval.1

/-- C4 (amended): from any well-formed endpoint state, after every
sequence of operations (slot acquisition and release, success and
failure recording with their embedded adaptive adjustments) the state
satisfies `0 ≤ active_slots ≤ max_concurrency` and the concurrency
limit is either 0 (disabled) or within `[min_concurrency,
max_concurrency]`.  The bound `active_slots ≤ concurrency_limit` of the
original claim is dropped: a downward adjustment or a hard disable can
push the limit below the number of held slots. -/
theorem C4_endpoint_invariant (cfg : RegistrySettings)
    (ops : List EndpointOp) (s : MempoolEndpointState) (h : WfEndpoint s) :
    (applyOps cfg ops s).active_slots ≤
        (applyOps cfg ops s).max_concurrency ∧
      ((applyOps cfg ops s).concurrency_limit = 0 ∨
        ((applyOps cfg ops s).min_concurrency ≤
            (applyOps cfg ops s).concurrency_limit ∧
          (applyOps cfg ops s).concurrency_limit ≤
            (applyOps cfg ops s).max_concurrency)) :=
  applyOps_wf cfg ops s h

/-- Closed witness for `C4_endpoint_invariant` at the priority-0
endpoint under one failure recording. -/
theorem C4_endpoint_invariant_witness :
    WfEndpoint epPriorityZero ∧
      ((applyOps cfgThreshold3 [.failure 1 0] epPriorityZero).active_slots ≤
          (applyOps cfgThreshold3 [.failure 1 0] epPriorityZero).max_concurrency ∧
        ((applyOps cfgThreshold3 [.failure 1 0] epPriorityZero).concurrency_limit = 0 ∨
          ((applyOps cfgThreshold3 [.failure 1 0] epPriorityZero).min_concurrency ≤
              (applyOps cfgThreshold3 [.failure 1 0] epPriorityZero).concurrency_limit ∧
            (applyOps cfgThreshold3 [.failure 1 0] epPriorityZero).concurrency_limit ≤
              (applyOps cfgThreshold3 [.failure 1 0] epPriorityZero).max_concurrency))) := by
  have hwf : WfEndpoint epPriorityZero := by
    constructor
    · norm_num [epPriorityZero]
    · exact Or.inr (by norm_num [epPriorityZero])
  exact ⟨hwf, C4_endpoint_invariant cfgThreshold3 [.failure 1 0] epPriorityZero hwf⟩

/-- C4 counterexample: from the well-formed priority-1 endpoint, after
the operation sequence acquire, acquire, record_failure (whose slow
latency fills the one-element window and triggers a downward
adjustment), the state has `active_slots = 2 > 1 = concurrency_limit`
while the endpoint is not disabled, refuting
`active_slots ≤ concurrency_limit` as stated. -/
theorem C4_counterexample :
    WfEndpoint epPriorityOne ∧
      epAfterOverload.active_slots = 2 ∧
      epAfterOverload.concurrency_limit = 1 ∧
      ¬ (epAfterOverload.active_slots ≤ epAfterOverload.concurrency_limit) ∧
      epAfterOverload.concurrency_limit ≠ 0 := by
  have heval : epAfterOverload.concurrency_limit = 1 ∧
      epAfterOverload.active_slots = 2 := by
    norm_num [epAfterOverload, applyOps, applyOp, epPriorityOne, cfgSmallWindow,
      tryAcquireSlot, cooldownRemaining, recordFailure, dequeAppend,
      maybeAdjustLocked, adjustedRecently, adjustDownCond, adjustUpCond,
      windowSuccessRate, windowAvgLatency, List.foldl]
    simp
  have hwf : WfEndpoint epPriorityOne := by
    constructor
    · norm_num [epPriorityOne]
    · exact Or.inr (by norm_num [epPriorityOne])
  refine ⟨hwf, heval.2, heval.1, ?_, ?_⟩
  · rw [heval.1, heval.2]
    omega
  · rw [heval.1]
    omega

/-- C6: through the pool's perform operation (with the per-endpoint
slot granted), HTTP 204 and HTTP 404 both return `none` and record a
success (success counter incremented, consecutive failures reset, the
full success-recording path - including the latency append - applied);
any other non-2xx status, a timeout, a network error, and a JSON-decode
failure on a 2xx body all record a failure. -/
theorem C6_perform_request_status_handling (cfg : RegistrySettings)
    (now latency : ℚ) (st : PoolState) (body : Option Nat) :
    ((performRequest cfg now latency true (.response 204 body) st).1 = none ∧
      (performRequest cfg now latency true (.response 204 body) st).2.endpoint =
        releaseSlot (recordSuccess cfg latency now
          { st.endpoint with active_slots := st.endpoint.active_slots + 1 }) ∧
      (performRequest cfg now latency true
          (.response 204 body) st).2.endpoint.success_count =
        st.endpoint.success_count + 1 ∧
      (performRequest cfg now latency true
          (.response 204 body) st).2.endpoint.consecutive_failures = 0) ∧
    ((performRequest cfg now latency true (.response 404 body) st).1 = none ∧
      (performRequest cfg now latency true (.response 404 body) st).2.endpoint =
        releaseSlot (recordSuccess cfg latency now
          { st.endpoint with active_slots := st.endpoint.active_slots + 1 }) ∧
      (performRequest cfg now latency true
          (.response 404 body) st).2.endpoint.success_count =
        st.endpoint.success_count + 1 ∧
      (performRequest cfg now latency true
          (.response 404 body) st).2.endpoint.consecutive_failures = 0) ∧
    (∀ status : Nat, ¬ (200 ≤ status ∧ status < 300) → status ≠ 404 →
      (performRequest cfg now latency true (.response status body) st).1 = none ∧
        (performRequest cfg now latency true
            (.response status body) st).2.endpoint.failure_count =
          st.endpoint.failure_count + 1) ∧
    (∀ status : Nat, 200 ≤ status → status < 300 → status ≠ 204 →
      (performRequest cfg now latency true
          (.response status (none : Option Nat)) st).2.endpoint.failure_count =
        st.endpoint.failure_count + 1) ∧
    ((performRequest cfg now latency true
        (HttpAttempt.timeout (α := Nat)) st).2.endpoint.failure_count =
      st.endpoint.failure_count + 1) ∧
    ((performRequest cfg now latency true
        (HttpAttempt.networkError (α := Nat)) st).2.endpoint.failure_count =
      st.endpoint.failure_count + 1) := by
  refine ⟨⟨?_, ?_, ?_, ?_⟩, ⟨?_, ?_, ?_, ?_⟩, ?_, ?_, ?_, ?_⟩
  · simp [performRequest]
  · simp [performRequest]
  · simp [performRequest, releaseSlot, recordSuccess_success_count]
  · simp [performRequest, releaseSlot, recordSuccess_consecutive_failures]
  · norm_num [performRequest]
  · norm_num [performRequest]
  · norm_num [performRequest, releaseSlot, recordSuccess_success_count]
  · norm_num [performRequest, releaseSlot, recordSuccess_consecutive_failures]
  · intro status h1 h2
    constructor
    · simp only [performRequest]
      rw [if_neg (by simp)]
      dsimp only
      rw [if_neg h1, if_neg h2]
    · simp only [performRequest]
      rw [if_neg (by simp)]
      dsimp only
      rw [if_neg h1, if_neg h2]
      simp [releaseSlot, recordFailure_failure_count]
  · intro status h1 h2 h3
    simp only [performRequest]
    rw [if_neg (by simp)]
    dsimp only
    rw [if_pos ⟨h1, h2⟩, if_neg h3]
    simp [releaseSlot, recordFailure_failure_count]
  · simp [performRequest, releaseSlot, recordFailure_failure_count]
  · simp [performRequest, releaseSlot, recordFailure_failure_count]

/-- Closed witness for `C6_perform_request_status_handling`,
instantiating the quantified error-status component at HTTP 500. -/
theorem C6_perform_request_status_handling_witness :
    (performRequest cfgThreshold3 0 1 true
        (HttpAttempt.response 500 (none : Option Nat))
        poolStart).2.endpoint.failure_count =
      poolStart.endpoint.failure_count + 1 :=
  ((C6_perform_request_status_handling cfgThreshold3 0 1 poolStart
      none).2.2.1 500 (by norm_num) (by norm_num)).2

/-- C7: the perform operation restores the global inflight semaphore
and the endpoint's `active_slots` on every exit path - success, 204,
404, timeout, HTTP error status, network error, JSON-decode failure,
and even the path where the per-endpoint slot was refused. -/
theorem C7_perform_request_releases_slots {α : Type}
    (cfg : RegistrySettings) (now latency : ℚ) (acquired : Bool)
    (attempt : HttpAttempt α) (st : PoolState)
    (hg : 0 < st.globalAvailable) :
    (performRequest cfg now latency acquired attempt st).2.globalAvailable =
        st.globalAvailable ∧
      (performRequest cfg now latency acquired attempt st).2.endpoint.active_slots =
        st.endpoint.active_slots := by
  constructor
  · have h : (performRequest cfg now latency acquired attempt st).2.globalAvailable
        = st.globalAvailable - 1 + 1 := by
      cases acquired <;> rfl
    rw [h]
    omega
  · cases acquired with
    | false =>
        simp [performRequest, recordFailure_active]
    | true =>
        cases attempt with
        | response status body =>
            simp only [performRequest]
            rw [if_neg (by simp)]
            dsimp only
            split_ifs <;> cases body <;>
              simp [releaseSlot, recordSuccess_active, recordFailure_active]
        | timeout => simp [performRequest, releaseSlot, recordFailure_active]
        | networkError => simp [performRequest, releaseSlot, recordFailure_active]

/-- Closed witness for `C7_perform_request_releases_slots` at a timeout
on the concrete pool state. -/
theorem C7_perform_request_releases_slots_witness :
    (performRequest cfgThreshold3 0 1 true (HttpAttempt.timeout (α := Nat))
        poolStart).2.globalAvailable = poolStart.globalAvailable ∧
      (performRequest cfgThreshold3 0 1 true (HttpAttempt.timeout (α := Nat))
          poolStart).2.endpoint.active_slots =
        poolStart.endpoint.active_slots :=
  C7_perform_request_releases_slots cfgThreshold3 0 1 true HttpAttempt.timeout
    poolStart (by norm_num [poolStart])

/-! ## Lemmas on `_dedupe_preserve_order` and batched fetching -/

theorem assocFind_append (xs ys : List (String × Nat)) (a : String) :
    assocFind (xs ++ ys) a =
      match assocFind xs a with
      | some v => some v
      | none => assocFind ys a := by
  induction xs with
  | nil => simp [assocFind]
  | cons p rest ih =>
      obtain ⟨k, v⟩ := p
      by_cases hk : k = a
      · simp [assocFind, hk]
      · simp [assocFind, hk, ih]

theorem dedupeGo_map_spec (rest : List String) :
    ∀ (seen : List (String × Nat)) (unique : List String)
      (imap : List (Nat × Nat)) (i : Nat),
      (∀ a u, assocFind seen a = some u →
        u < unique.length ∧ unique.getD u "" = a) →
      (∀ p ∈ imap, p.2 < unique.length) →
      ((dedupeGo rest seen unique imap i).2.map
          (fun p => (dedupeGo rest seen unique imap i).1.getD p.2 ""))
        = imap.map (fun p => unique.getD p.2 "") ++ rest := by
  induction rest with
  | nil =>
      intro seen unique imap i _ _
      simp [dedupeGo]
  | cons item rtl ih =>
      intro seen unique imap i hseen himap
      unfold dedupeGo
      cases hfind : assocFind seen item with
      | some u =>
          have hu := hseen item u hfind
          have himap' : ∀ p ∈ imap ++ [(i, u)], p.2 < unique.length := by
            intro p hp
            rcases List.mem_append.mp hp with h | h
            · exact himap p h
            · simp at h
              rw [h]
              exact hu.1
          have hrec := ih seen unique (imap ++ [(i, u)]) (i + 1) hseen himap'
          rw [hrec, List.map_append, List.append_assoc]
          simp only [List.map_cons, List.map_nil, List.singleton_append]
          rw [hu.2]
      | none =>
          have hseen' : ∀ a u,
              assocFind (seen ++ [(item, unique.length)]) a = some u →
              u < (unique ++ [item]).length ∧
                (unique ++ [item]).getD u "" = a := by
            intro a u hfa
            rw [assocFind_append] at hfa
            cases hsa : assocFind seen a with
            | some v =>
                rw [hsa] at hfa
                obtain ⟨hlt, hget⟩ := hseen a v hsa
                cases hfa
                constructor
                · simp
                  omega
                · rw [List.getD_append _ _ _ _ hlt]
                  exact hget
            | none =>
                rw [hsa] at hfa
                simp [assocFind] at hfa
                obtain ⟨hia, huv⟩ := hfa
                subst hia
                subst huv
                constructor
                · simp
                · rw [List.getD_append_right _ _ _ _ (le_refl _)]
                  simp
          have himap' : ∀ p ∈ imap ++ [(i, unique.length)],
              p.2 < (unique ++ [item]).length := by
            intro p hp
            rcases List.mem_append.mp hp with h | h
            · have := himap p h
              simp
              omega
            · simp at h
              rw [h]
              simp
          have hrec := ih (seen ++ [(item, unique.length)]) (unique ++ [item])
            (imap ++ [(i, unique.length)]) (i + 1) hseen' himap'
          rw [hrec, List.map_append]
          have hlast : (unique ++ [item]).getD unique.length "" = item := by
            rw [List.getD_append_right _ _ _ _ (le_refl _)]
            simp
          have hstable : imap.map
                (fun p => (unique ++ [item]).getD p.2 "") =
              imap.map (fun p => unique.getD p.2 "") := by
            apply List.map_congr_left
            intro p hp
            exact List.getD_append _ _ _ _ (himap p hp)
          rw [hstable, List.append_assoc]
          simp only [List.map_cons, List.map_nil, List.singleton_append]
          rw [hlast]

theorem dedupe_mapped (txids : List String) :
    (dedupePreserveOrder txids).2.map
        (fun p => (dedupePreserveOrder txids).1.getD p.2 "") = txids := by
  have h := dedupeGo_map_spec txids [] [] [] 0
    (by intro a u hau; simp [assocFind] at hau)
    (by intro p hp; simp at hp)
  simpa [dedupePreserveOrder] using h

theorem fetchTransactionsBatch_eq_map
    (cache mempoolSrc electrumSrc : String → Option Transaction)
    (txids : List String) :
    fetchTransactionsBatch cache mempoolSrc electrumSrc txids =
      txids.map (resolveTxid cache mempoolSrc electrumSrc) := by
  show ((dedupePreserveOrder txids).2.map fun pos =>
      resolveTxid cache mempoolSrc electrumSrc
        ((dedupePreserveOrder txids).1.getD pos.2 "")) = _
  conv_rhs => rw [← dedupe_mapped txids]
  rw [List.map_map]
  rfl

/-- C5: `fetch_transactions_batch` returns one entry per input position
in input order: the result has the input's length, every position is
the three-source resolution of its txid (hence duplicated txids give
identical entries - the same `result_map` value - and a txid that fails
at the cache, mempool and Electrum sources yields `none`). -/
theorem C5_fetch_transactions_batch
    (cache mempoolSrc electrumSrc : String → Option Transaction)
    (txids : List String) :
    (fetchTransactionsBatch cache mempoolSrc electrumSrc txids).length =
        txids.length ∧
      (∀ i, i < txids.length →
        (fetchTransactionsBatch cache mempoolSrc electrumSrc txids).getD i none =
          resolveTxid cache mempoolSrc electrumSrc (txids.getD i "")) ∧
      (∀ i j, i < txids.length → j < txids.length →
        txids.getD i "" = txids.getD j "" →
        (fetchTransactionsBatch cache mempoolSrc electrumSrc txids).getD i none =
          (fetchTransactionsBatch cache mempoolSrc electrumSrc txids).getD j none) ∧
      (∀ i, i < txids.length →
        resolveTxid cache mempoolSrc electrumSrc (txids.getD i "") = none →
        (fetchTransactionsBatch cache mempoolSrc electrumSrc txids).getD i none =
          none) := by
  have h := fetchTransactionsBatch_eq_map cache mempoolSrc electrumSrc txids
  have hpos : ∀ i, i < txids.length →
      (fetchTransactionsBatch cache mempoolSrc electrumSrc txids).getD i none =
        resolveTxid cache mempoolSrc electrumSrc (txids.getD i "") := by
    intro i hi
    have hi' : i <
        (txids.map (resolveTxid cache mempoolSrc electrumSrc)).length := by
      rw [List.length_map]
      exact hi
    rw [h, List.getD_eq_getElem _ _ hi', List.getElem_map,
      List.getD_eq_getElem _ _ hi]
  refine ⟨by rw [h]; exact List.length_map _ _, hpos, ?_, ?_⟩
  · intro i j hi hj hij
    rw [hpos i hi, hpos j hj, hij]
  · intro i hi hres
    rw [hpos i hi, hres]

/-- Closed witness for `C5_fetch_transactions_batch` on the input
`["a", "b", "a"]` where only txid `a` resolves: length 3, positions 0
and 2 coincide, position 1 is `none`. -/
theorem C5_fetch_transactions_batch_witness :
    (fetchTransactionsBatch sourceEmpty sourceKnowsA sourceEmpty
        ["a", "b", "a"]).length = 3 ∧
      (fetchTransactionsBatch sourceEmpty sourceKnowsA sourceEmpty
          ["a", "b", "a"]).getD 0 none =
        (fetchTransactionsBatch sourceEmpty sourceKnowsA sourceEmpty
            ["a", "b", "a"]).getD 2 none ∧
      (fetchTransactionsBatch sourceEmpty sourceKnowsA sourceEmpty
          ["a", "b", "a"]).getD 1 none = none := by
  have h := C5_fetch_transactions_batch sourceEmpty sourceKnowsA sourceEmpty
    ["a", "b", "a"]
  exact ⟨h.1, h.2.2.1 0 2 (by norm_num) (by norm_num) (by rfl),
    h.2.2.2 1 (by norm_num) (by rfl)⟩

/-! ## Lemmas on `get_address_txids` pagination -/

theorem collectPage_cons (col : List String) (e : Option String)
    (rest : List (Option String)) :
    collectPage col (e :: rest) =
      collectPage
        (match e with
         | none => col
         | some txid =>
             if txid = "" ∨ txid ∈ col then col else col ++ [txid]) rest := rfl

theorem collectPage_nodup (page : List (Option String)) :
    ∀ col : List String, col.Nodup → (collectPage col page).Nodup := by
  induction page with
  | nil => intro col h; exact h
  | cons e rest ih =>
      intro col h
      rw [collectPage_cons]
      apply ih
      cases e with
      | none => exact h
      | some txid =>
          dsimp only
          by_cases hc : txid = "" ∨ txid ∈ col
          · rw [if_pos hc]; exact h
          · rw [if_neg hc]
            push_neg at hc
            simp [List.nodup_append, h, hc.2]

theorem collectPage_extends (page : List (Option String)) :
    ∀ col : List String, col <+: collectPage col page := by
  induction page with
  | nil => intro col; exact List.prefix_refl col
  | cons e rest ih =>
      intro col
      rw [collectPage_cons]
      cases e with
      | none => exact ih col
      | some txid =>
          dsimp only
          by_cases hc : txid = "" ∨ txid ∈ col
          · rw [if_pos hc]; exact ih col
          · rw [if_neg hc]
            exact (List.prefix_append col [txid]).trans (ih (col ++ [txid]))

theorem collectPage_length (page : List (Option String)) :
    ∀ col : List String,
      (collectPage col page).length ≤ col.length + page.length := by
  induction page with
  | nil =>
      intro col
      rw [show collectPage col [] = col from rfl]
      simp
  | cons e rest ih =>
      intro col
      rw [collectPage_cons]
      rcases e with _ | txid
      · dsimp only
        have := ih col
        simp only [List.length_cons]
        omega
      · dsimp only
        by_cases hc : txid = "" ∨ txid ∈ col
        · rw [if_pos hc]
          have := ih col
          simp only [List.length_cons]
          omega
        · rw [if_neg hc]
          have := ih (col ++ [txid])
          have hlen : (col ++ [txid]).length = col.length + 1 := by simp
          simp only [List.length_cons]
          omega

theorem gaGo_nodup (em mr : Nat) (et : Option Nat)
    (pages : List (List (Option String))) :
    ∀ (col : List String) (offset page : Nat), col.Nodup →
      (getAddressTxidsGo em mr et pages col offset page).Nodup := by
  induction pages with
  | nil => intro col _ _ h; exact h
  | cons data rest ih =>
      intro col offset page h
      unfold getAddressTxidsGo
      dsimp only
      split_ifs with h1 h2 h3 h4 h5 h6
      · exact h
      · exact h
      · exact collectPage_nodup data col h
      · exact collectPage_nodup data col h
      · exact collectPage_nodup data col h
      · exact collectPage_nodup data col h
      · exact ih _ _ _ (collectPage_nodup data col h)

theorem gaGo_extends (em mr : Nat) (et : Option Nat)
    (pages : List (List (Option String))) :
    ∀ (col : List String) (offset page : Nat),
      col <+: getAddressTxidsGo em mr et pages col offset page := by
  induction pages with
  | nil => intro col _ _; exact List.prefix_refl col
  | cons data rest ih =>
      intro col offset page
      unfold getAddressTxidsGo
      dsimp only
      split_ifs with h1 h2 h3 h4 h5 h6
      · exact List.prefix_refl col
      · exact List.prefix_refl col
      · exact collectPage_extends data col
      · exact collectPage_extends data col
      · exact collectPage_extends data col
      · exact collectPage_extends data col
      · exact (collectPage_extends data col).trans (ih _ _ _)

theorem gaGo_length (em mr : Nat) (et : Option Nat)
    (pages : List (List (Option String))) (M : Nat)
    (hM : ∀ p ∈ pages, p.length ≤ M) :
    ∀ (col : List String) (offset page : Nat),
      col.length ≤ (em - 1) + M →
      (getAddressTxidsGo em mr et pages col offset page).length ≤
        (em - 1) + M := by
  induction pages with
  | nil => intro col _ _ h; exact h
  | cons data rest ih =>
      intro col offset page h
      have hdata : data.length ≤ M := hM data (by simp)
      have hMrest : ∀ p ∈ rest, p.length ≤ M := by
        intro p hp
        exact hM p (by simp [hp])
      have hcol' : ¬ em ≤ col.length →
          (collectPage col data).length ≤ (em - 1) + M := by
        intro hlt
        have := collectPage_length data col
        omega
      unfold getAddressTxidsGo
      dsimp only
      split_ifs with h1 h2 h3 h4 h5 h6
      · exact h
      · exact h
      · exact hcol' h1
      · exact hcol' h1
      · exact hcol' h1
      · exact hcol' h1
      · exact ih hMrest _ _ _ (hcol' h1)

theorem page_length_le_foldr_max (pages : List (List (Option String))) :
    ∀ p ∈ pages, p.length ≤ pages.foldr (fun q m => max q.length m) 0 := by
  induction pages with
  | nil => simp
  | cons q rest ih =>
      intro p hp
      rcases List.mem_cons.mp hp with hq | hp'
      · rw [hq]
        exact le_max_left _ _
      · exact (ih p hp').trans (le_max_right _ _)

theorem effectiveMax_le (mr : Nat) (et : Option Nat) :
    (match et with
     | some v => min mr v
     | none => mr) ≤ mr := by
  cases et with
  | none => exact le_refl mr
  | some v => exact min_le_left mr v

/-- C9 (amended): `get_address_txids(max_results = K)` returns pairwise
distinct, non-null txids in collection order (the previously collected
list is always a prefix of the final one); a further page is requested
only while fewer than `effective_max ≤ K` unique txids have been
collected, so the result exceeds `K` only by entries of the final page:
its length is at most `K − 1` plus the largest page size. -/
theorem C9_get_address_txids_amended (pages : List (List (Option String)))
    (mr : Nat) (et : Option Nat) :
    (getAddressTxids pages mr et).Nodup ∧
      (getAddressTxids pages mr et).length ≤
        (mr - 1) + pages.foldr (fun q m => max q.length m) 0 ∧
      [] <+: getAddressTxids pages mr et := by
  unfold getAddressTxids
  dsimp only
  refine ⟨gaGo_nodup _ _ _ _ _ _ _ List.nodup_nil, ?_, gaGo_extends _ _ _ _ _ _ _⟩
  have hlen := gaGo_length
    (match et with
     | some v => min mr v
     | none => mr) mr et pages
    (pages.foldr (fun q m => max q.length m) 0)
    (page_length_le_foldr_max pages) [] 0 0 (by simp)
  exact hlen.trans
    (Nat.add_le_add_right
      (Nat.sub_le_sub_right (effectiveMax_le mr et) 1) _)

/-- C9 counterexample: with `max_results = 1` and a first page of three
distinct txids, `get_address_txids` returns all three collected txids
(lines 475-477 return the whole `collected` list), exceeding
`max_results`. -/
theorem C9_counterexample :
    getAddressTxids [[some "a", some "b", some "c"]] 1 none =
        ["a", "b", "c"] ∧
      ¬ ((getAddressTxids [[some "a", some "b", some "c"]] 1 none).length
          ≤ 1) := by
  constructor
  · rfl
  · decide

/-! ## Lemmas on change detection -/

theorem detectReusedAddress_range (history : String → Option (List String))
    (a : Option String) :
    0 ≤ detectReusedAddress history a ∧ detectReusedAddress history a ≤ 1 := by
  unfold detectReusedAddress
  rcases a with _ | s
  · norm_num
  · dsimp only
    split_ifs with h
    · norm_num
    · rcases hh : history s with _ | prior <;> dsimp only
      · norm_num
      · split_ifs <;> norm_num

theorem detectRoundAmount_range (value : Nat) :
    0 ≤ detectRoundAmount value ∧ detectRoundAmount value ≤ 1 := by
  unfold detectRoundAmount
  dsimp only
  split_ifs <;> norm_num

theorem scriptTypeScore_range (tx : Transaction) (i : Nat) :
    0 ≤ scriptTypeScore tx i ∧ scriptTypeScore tx i ≤ 1 := by
  unfold scriptTypeScore
  rcases (tx.outputs.getD i defaultOutput).script_type with _ | t <;> dsimp only
  · norm_num
  · split_ifs <;> norm_num

theorem optimalChangeScore_range (tx : Transaction) (i : Nat) :
    0 ≤ optimalChangeScore tx i ∧ optimalChangeScore tx i ≤ 1 := by
  unfold optimalChangeScore
  dsimp only
  split_ifs <;> norm_num

theorem walletPatternScore_range (tx : Transaction) (i : Nat) :
    0 ≤ walletPatternScore tx i ∧ walletPatternScore tx i ≤ 1 := by
  unfold walletPatternScore
  split_ifs <;> norm_num

theorem mul_step_range (p s : ℚ) (hp : 0 ≤ p ∧ p ≤ 1) (hs : 0 ≤ s ∧ s ≤ 1) :
    0 ≤ p * (1 - s) ∧ p * (1 - s) ≤ 1 := by
  obtain ⟨hp0, hp1⟩ := hp
  obtain ⟨hs0, hs1⟩ := hs
  constructor <;> nlinarith

theorem boost_step_range (p s : ℚ) (hp : 0 ≤ p ∧ p ≤ 1) (hs : 0 ≤ s ∧ s ≤ 1) :
    0 ≤ p + (1 - p) * s ∧ p + (1 - p) * s ≤ 1 := by
  obtain ⟨hp0, hp1⟩ := hp
  obtain ⟨hs0, hs1⟩ := hs
  constructor <;> nlinarith

theorem ite_mul_step_range (p s : ℚ) (hp : 0 ≤ p ∧ p ≤ 1)
    (hs : 0 ≤ s ∧ s ≤ 1) :
    0 ≤ (if 0 < s then p * (1 - s) else p) ∧
      (if 0 < s then p * (1 - s) else p) ≤ 1 := by
  split_ifs with h
  · exact mul_step_range p s hp hs
  · exact hp

theorem ite_boost_step_range (p s : ℚ) (hp : 0 ≤ p ∧ p ≤ 1)
    (hs : 0 ≤ s ∧ s ≤ 1) :
    0 ≤ (if 0 < s then p + (1 - p) * s else p) ∧
      (if 0 < s then p + (1 - p) * s else p) ≤ 1 := by
  split_ifs with h
  · exact boost_step_range p s hp hs
  · exact hp

theorem combineProb_range (r1 r2 sc oc wc : ℚ)
    (h1 : 0 ≤ r1 ∧ r1 ≤ 1) (h2 : 0 ≤ r2 ∧ r2 ≤ 1)
    (h3 : 0 ≤ sc ∧ sc ≤ 1) (h4 : 0 ≤ oc ∧ oc ≤ 1)
    (h5 : 0 ≤ wc ∧ wc ≤ 1) :
    0 ≤ combineProb r1 r2 sc oc wc ∧ combineProb r1 r2 sc oc wc ≤ 1 := by
  unfold combineProb
  exact ite_boost_step_range _ _
    (ite_boost_step_range _ _
      (ite_boost_step_range _ _
        (ite_mul_step_range _ _
          (ite_mul_step_range _ _ (by norm_num) h1) h2) h3) h4) h5

theorem combinedScore_range (history : String → Option (List String))
    (tx : Transaction) (i : Nat) :
    0 ≤ combinedScore history tx i ∧ combinedScore history tx i ≤ 1 := by
  unfold combinedScore
  exact combineProb_range _ _ _ _ _
    (detectReusedAddress_range history _) (detectRoundAmount_range _)
    (scriptTypeScore_range tx i) (optimalChangeScore_range tx i)
    (walletPatternScore_range tx i)

theorem argmaxFirst_succ (f : Nat → ℚ) (n : Nat) :
    argmaxFirst f (n + 1) =
      if f (argmaxFirst f n) < f n then n else argmaxFirst f n := by
  unfold argmaxFirst
  rw [List.range_succ, List.foldl_append]
  rfl

theorem argmaxFirst_spec (f : Nat → ℚ) (n : Nat) (hn : 0 < n) :
    argmaxFirst f n < n ∧
      (∀ j, j < n → f j ≤ f (argmaxFirst f n)) ∧
      (∀ j, j < argmaxFirst f n → f j < f (argmaxFirst f n)) := by
  induction n with
  | zero => omega
  | succ m ih =>
      rcases Nat.eq_zero_or_pos m with hm | hm
      · subst hm
        have h0 : argmaxFirst f 1 = 0 := by
          unfold argmaxFirst
          rw [show List.range 1 = [0] from rfl]
          simp [lt_irrefl]
        rw [h0]
        refine ⟨by omega, ?_, by omega⟩
        intro j hj
        interval_cases j
        exact le_refl _
      · obtain ⟨ihlt, ihmax, ihfirst⟩ := ih hm
        rw [argmaxFirst_succ]
        split_ifs with hcmp
        · refine ⟨by omega, ?_, ?_⟩
          · intro j hj
            rcases Nat.lt_succ_iff_lt_or_eq.mp hj with hjm | hjm
            · exact le_of_lt (lt_of_le_of_lt (ihmax j hjm) hcmp)
            · rw [hjm]
          · intro j hj
            exact lt_of_le_of_lt (ihmax j hj) hcmp
        · refine ⟨by omega, ?_, ihfirst⟩
          intro j hj
          rcases Nat.lt_succ_iff_lt_or_eq.mp hj with hjm | hjm
          · exact ihmax j hjm
          · rw [hjm]
            exact not_lt.mp hcmp

/-- C10: for a transaction with at least two outputs, change detection
returns a result whose confidence is exactly the combined per-output
change probability (0.5 multiplied by `1 − score` for active
address-reuse and round-amount heuristics, then boosted toward 1 by the
script-match, optimal-change and wallet-pattern heuristics), lies in
`[0, 1]`, and whose output index is the first argmax of those
probabilities (deterministic tie-break toward the smaller index). -/
theorem C10_change_detection (history : String → Option (List String))
    (tx : Transaction) (h2 : 2 ≤ tx.outputs.length) :
    ∃ r, identifyChangeOutput history tx = some r ∧
      r.output_index < tx.outputs.length ∧
      r.confidence = combinedScore history tx r.output_index ∧
      0 ≤ r.confidence ∧ r.confidence ≤ 1 ∧
      (∀ j, j < tx.outputs.length →
        combinedScore history tx j ≤
          combinedScore history tx r.output_index) ∧
      (∀ j, j < r.output_index →
        combinedScore history tx j <
          combinedScore history tx r.output_index) := by
  have hn : 0 < tx.outputs.length := by omega
  obtain ⟨hlt, hmax, hfirst⟩ :=
    argmaxFirst_spec (combinedScore history tx) tx.outputs.length hn
  refine ⟨{ output_index := argmaxFirst (combinedScore history tx)
              tx.outputs.length,
            confidence := combinedScore history tx
              (argmaxFirst (combinedScore history tx) tx.outputs.length) },
    ?_, hlt, rfl, (combinedScore_range history tx _).1,
    (combinedScore_range history tx _).2, hmax, hfirst⟩
  unfold identifyChangeOutput
  rw [if_neg (by omega)]

/-- Closed witness for `C10_change_detection` on the concrete
two-output transaction with an empty history. -/
theorem C10_change_detection_witness :
    ∃ r, identifyChangeOutput historyEmpty txTwoOutputs = some r ∧
      r.output_index < txTwoOutputs.outputs.length ∧
      r.confidence = combinedScore historyEmpty txTwoOutputs r.output_index ∧
      0 ≤ r.confidence ∧ r.confidence ≤ 1 ∧
      (∀ j, j < txTwoOutputs.outputs.length →
        combinedScore historyEmpty txTwoOutputs j ≤
          combinedScore historyEmpty txTwoOutputs r.output_index) ∧
      (∀ j, j < r.output_index →
        combinedScore historyEmpty txTwoOutputs j <
          combinedScore historyEmpty txTwoOutputs r.output_index) :=
  C10_change_detection historyEmpty txTwoOutputs
    (by norm_num [txTwoOutputs])

/-- C1 (code evaluation at the failing input): any `/trace/utxo`
request with a hop count above 1 skips the fast-path block
(trace.py line 47), reaches line 237 where `nodes` was never assigned,
and the resulting `NameError` becomes an HTTP 500 - the recursive
orchestrator (lines 246-255) is dead code.  Shown at the concrete
request `hops_before = 2` and for every request with either hop count
equal to 2. -/
theorem C1_trace_utxo_name_error :
    traceUtxo fetchKnown reqHops2 =
        Except.error TraceFailure.nameErrorNodesUndefined ∧
      (∀ (fetch : String → Option Transaction) (txid : String)
          (vout cap ha : Nat),
        traceUtxo fetch
            { txid := txid, vout := vout, hops_before := 2,
              hops_after := ha, max_addresses_per_tx := cap } =
          Except.error TraceFailure.nameErrorNodesUndefined) ∧
      (∀ (fetch : String → Option Transaction) (txid : String)
          (vout cap hb : Nat),
        traceUtxo fetch
            { txid := txid, vout := vout, hops_before := hb,
              hops_after := 2, max_addresses_per_tx := cap } =
          Except.error TraceFailure.nameErrorNodesUndefined) := by
  refine ⟨rfl, ?_, ?_⟩
  · intro fetch txid vout cap ha
    unfold traceUtxo
    rw [if_neg (by dsimp only; omega)]
  · intro fetch txid vout cap hb
    unfold traceUtxo
    rw [if_neg (by dsimp only; omega)]

/-- C3 (code evaluation at the failing input): the streaming address
trace emits its first `metadata` event, then calls
`fetch_address_history(address, max_results=...)` whose callee accepts
no `max_results` keyword, so the `TypeError` is caught by the blanket
`except` and the emitted sequence is exactly `[metadata, error]` -
never the second metadata, batches, progress or complete events the
claim describes. -/
theorem C3_stream_address_trace_type_error (history : List String)
    (fetchBatch : List String → List (Option Transaction))
    (address : String) (hops_before hops_after : Nat) :
    streamAddressTrace history fetchBatch address hops_before hops_after =
      [StreamEvent.metadata none, StreamEvent.error "TypeError"] := by
  unfold streamAddressTrace
  rw [if_neg (by decide)]

end ChainViz
